import Mathlib

/-!
Shallow embedding of the TradeTracker backend's trade lifecycle and metrics
engine (src/backend/main_firebase.py, Firestore branch), with theorems
checking the natural-language specification against it.

Conventions of the embedding:
* Python floats are modelled as rationals (`ℚ`).
* Firestore documents are modelled as Lean structures; a collection is a
  `List` of such structures, in query-result order, and `query.get()[0]`
  is the head of the filtered list.
* Python truthiness of an optional number (`None` and `0.0` are falsy) is
  `truthyQ`; of an optional string (`None` and `""` are falsy) is `truthyS`.
* `datetime.now()` is threaded in as an explicit timestamp counter `now : ℕ`
  and the current calendar date as a string `today`.
* An aborting `HTTPException` is an `Except.error` carrying an `ApiError`.
-/

namespace TradeTracker

/-- Python truthiness of an optional number: `None` and `0.0` are falsy. -/
def truthyQ : Option ℚ → Bool
  | none => false
  | some x => x != 0

/-- Python truthiness of an optional string: `None` and `""` are falsy. -/
def truthyS : Option String → Bool
  | none => false
  | some s => s != ""

/-- Characters removed by Python's `str.strip(' |')`. -/
def isStripChar (c : Char) : Bool := c == ' ' || c == '|'

/-- Python's `str.strip(' |')`: drop any leading and trailing blanks and pipes. -/
def stripPipe (s : String) : String :=
  String.mk (((s.toList.dropWhile isStripChar).reverse.dropWhile isStripChar).reverse)

/-- The epsilon used by `exit_trade` for remaining-share comparisons (`1e-10`). -/
def eps : ℚ := 1 / 10 ^ 10

/-- A trade document as stored in the `trades` collection
(fields of the `Trade` pydantic model of `main_firebase.py`, plus the
`exit_date` key that `exit_trade` writes onto closed documents). -/
structure Trade where
  id : String
  user_id : String
  date : String
  exit_date : Option String := none
  ticker : String
  buy_price : Option ℚ := none
  sell_price : Option ℚ := none
  shares : ℚ
  risk : Option ℚ := none
  risk_dollars : Option ℚ := none
  account_balance : Option ℚ := none
  notes : String := ""
  status : String
  created_at : ℕ := 0
  updated_at : ℕ := 0
deriving DecidableEq, Repr

/-- Error taxonomy of the HTTP handlers: 404, 400/422, 403. -/
inductive ApiError where
  | notFound
  | validationError
  | accessDenied
deriving DecidableEq, Repr

/-- The `ExitTradeRequest` payload (after its validators coerce the numeric
fields to floats). -/
structure ExitRequest where
  ticker : String
  shares_to_exit : ℚ
  sell_price : ℚ
  notes : String := ""
deriving DecidableEq, Repr

/-- The Firestore query of `exit_trade`: documents with this user id and
ticker whose status is `"open"`. -/
def isOpenMatch (user ticker : String) (t : Trade) : Bool :=
  t.user_id == user && t.ticker == ticker && t.status == "open"

/-- Replace the first element satisfying `p` by its image under `f`
(models an update through the matched document's reference). -/
def replaceFirst {α : Type} (p : α → Bool) (f : α → α) : List α → List α
  | [] => []
  | a :: as => if p a then f a :: as else a :: replaceFirst p f as

/-- The in-place update performed by `exit_trade` on a full exit:
sell price, closed status, exit date, refreshed timestamp, shares set to the
exited amount, and the exit note appended when one was given. -/
def fullExitUpdate (req : ExitRequest) (today : String) (now : ℕ) (t : Trade) : Trade :=
  { t with
    sell_price := some req.sell_price
    status := "closed"
    exit_date := some today
    updated_at := now
    shares := req.shares_to_exit
    notes := if req.notes ≠ "" then stripPipe (t.notes ++ " | Exit: " ++ req.notes) else t.notes }

/-- The new closed-leg document created by `exit_trade` on a partial exit. -/
def exitLegRecord (t : Trade) (user_id : String) (req : ExitRequest)
    (today : String) (now : ℕ) (newId : String) : Trade :=
  { id := newId
    user_id := user_id
    date := t.date
    exit_date := some today
    ticker := req.ticker
    buy_price := t.buy_price
    sell_price := some req.sell_price
    shares := req.shares_to_exit
    risk := t.risk
    risk_dollars := t.risk_dollars
    account_balance := none
    notes := stripPipe (t.notes ++ " | Partial exit: " ++ req.notes)
    status := "closed"
    created_at := t.created_at
    updated_at := now }

/-- The `POST /exit-trade/{user_id}` handler (Firestore branch): locate the
first open trade for (owner, ticker), validate the requested share count,
then either close the document in place (remaining shares within `eps` of
zero) or create a closed leg and decrement the original. -/
def exit_trade (trades : List Trade) (user_id current_user : String) (req : ExitRequest)
    (today : String) (now : ℕ) (newId : String) : Except ApiError (List Trade) :=
  if user_id ≠ current_user then .error .accessDenied
  else
    match trades.filter (isOpenMatch user_id req.ticker) with
    | [] => .error .notFound
    | t :: _ =>
      if req.shares_to_exit > t.shares then .error .validationError
      else
        let remaining0 := t.shares - req.shares_to_exit
        let remaining : ℚ := if |remaining0| < eps then 0 else remaining0
        if remaining = 0 then
          .ok (replaceFirst (isOpenMatch user_id req.ticker) (fullExitUpdate req today now) trades)
        else
          .ok (replaceFirst (isOpenMatch user_id req.ticker)
                (fun v => { v with shares := remaining, updated_at := now }) trades
              ++ [exitLegRecord t user_id req today now newId])

/-- The trades collection after an exit request: on an error the handler
raised before performing any write, so the collection is unchanged. -/
def applyExit (trades : List Trade) (user_id current_user : String) (req : ExitRequest)
    (today : String) (now : ℕ) (newId : String) : List Trade :=
  match exit_trade trades user_id current_user req today now newId with
  | .ok ts => ts
  | .error _ => trades

/-- The payload of `POST /add-trade` (the `Trade` pydantic model before the
handler mutates it). -/
structure TradeInput where
  user_id : String
  date : String
  ticker : String
  buy_price : Option ℚ := none
  sell_price : Option ℚ := none
  shares : ℚ
  risk : Option ℚ := none
  risk_dollars : Option ℚ := none
  account_balance : Option ℚ := none
  notes : String := ""
  status : String
deriving DecidableEq, Repr

/-- Account-balance resolution in `add_trade`: a truthy caller-supplied
balance wins; otherwise the value fetched for the owner's profile is used
(`profileBalance` stands for that fetch, with the 10000.0 default already
applied when the profile or its balance field is absent). -/
def resolvedBalance (input : TradeInput) (profileBalance : ℚ) : ℚ :=
  if truthyQ input.account_balance then input.account_balance.getD 0 else profileBalance

/-- The `POST /add-trade` handler: status-dependent price validation, risk
validation, balance resolution, derivation of the missing risk field, forcing
of the owner id, and the persisted document. -/
def add_trade (input : TradeInput) (current_user : String) (profileBalance : ℚ)
    (now : ℕ) (newId : String) : Except ApiError Trade :=
  if input.status == "open" && !truthyQ input.buy_price then .error .validationError
  else if input.status == "closed" && !truthyQ input.sell_price then .error .validationError
  else if !truthyQ input.risk && !truthyQ input.risk_dollars then .error .validationError
  else
    let balance := resolvedBalance input profileBalance
    if balance > 0 then
      .ok { id := newId
            user_id := current_user
            date := input.date
            exit_date := none
            ticker := input.ticker
            buy_price := input.buy_price
            sell_price := input.sell_price
            shares := input.shares
            risk := if truthyQ input.risk_dollars && !truthyQ input.risk
                    then some (input.risk_dollars.getD 0 / balance * 100) else input.risk
            risk_dollars := if truthyQ input.risk && !truthyQ input.risk_dollars
                            then some (input.risk.getD 0 / 100 * balance) else input.risk_dollars
            account_balance := some balance
            notes := input.notes
            status := input.status
            created_at := now
            updated_at := now }
    else
      .ok { id := newId
            user_id := current_user
            date := input.date
            exit_date := none
            ticker := input.ticker
            buy_price := input.buy_price
            sell_price := input.sell_price
            shares := input.shares
            risk := input.risk
            risk_dollars := input.risk_dollars
            account_balance := input.account_balance
            notes := input.notes
            status := input.status
            created_at := now
            updated_at := now }

/-- Python's `str.upper` (ASCII case mapping, as `.upper()` behaves on
ticker symbols). -/
def strUpper (s : String) : String := String.mk (s.toList.map Char.toUpper)

/-- The payload of `PUT /trades/{trade_id}` (`UpdateTradeRequest`); a `none`
field was not supplied in the request. -/
structure UpdateRequest where
  date : Option String := none
  ticker : Option String := none
  buy_price : Option ℚ := none
  sell_price : Option ℚ := none
  shares : Option ℚ := none
  risk : Option ℚ := none
  risk_dollars : Option ℚ := none
  account_balance : Option ℚ := none
  notes : Option String := none
  status : Option String := none
deriving DecidableEq, Repr

/-- The merged document written by `update_trade`: each supplied field
overrides the stored one (the ticker uppercased), the derived risk fields
(when the handler computed them) override both, and `updated_at` is
refreshed. -/
def applyUpdate (t : Trade) (req : UpdateRequest) (riskOverride rdOverride : Option ℚ)
    (now : ℕ) : Trade :=
  { t with
    date := req.date.getD t.date
    ticker := (req.ticker.map strUpper).getD t.ticker
    buy_price := if req.buy_price.isSome then req.buy_price else t.buy_price
    sell_price := if req.sell_price.isSome then req.sell_price else t.sell_price
    shares := req.shares.getD t.shares
    risk := if riskOverride.isSome then riskOverride
            else if req.risk.isSome then req.risk else t.risk
    risk_dollars := if rdOverride.isSome then rdOverride
                    else if req.risk_dollars.isSome then req.risk_dollars else t.risk_dollars
    account_balance := if req.account_balance.isSome then req.account_balance else t.account_balance
    notes := req.notes.getD t.notes
    status := req.status.getD t.status
    updated_at := now }

/-- The status the merged record will have, as used by the re-validation
(`update_request.status or trade_data.get('status')`, Python truthiness). -/
def finalStatus (req : UpdateRequest) (t : Trade) : String :=
  if truthyS req.status then req.status.getD "" else t.status

/-- The buy price the merged record will have (`is not None` merge). -/
def finalBuy (req : UpdateRequest) (t : Trade) : Option ℚ :=
  if req.buy_price.isSome then req.buy_price else t.buy_price

/-- The sell price the merged record will have. -/
def finalSell (req : UpdateRequest) (t : Trade) : Option ℚ :=
  if req.sell_price.isSome then req.sell_price else t.sell_price

/-- The risk percentage the merged record will have before re-derivation. -/
def finalRisk (req : UpdateRequest) (t : Trade) : Option ℚ :=
  if req.risk.isSome then req.risk else t.risk

/-- The dollar risk the merged record will have before re-derivation. -/
def finalRiskDollars (req : UpdateRequest) (t : Trade) : Option ℚ :=
  if req.risk_dollars.isSome then req.risk_dollars else t.risk_dollars

/-- The account balance the risk re-derivation of `update_trade` uses
(`None` is treated as `0`, which disables the derivation). -/
def updBalance (req : UpdateRequest) (t : Trade) : ℚ :=
  (if req.account_balance.isSome then req.account_balance else t.account_balance).getD 0

/-- The re-derived dollar risk `update_trade` writes when the percentage is
truthy, the dollar risk is not, and the balance is positive. -/
def updRdOverride (req : UpdateRequest) (t : Trade) : Option ℚ :=
  if updBalance req t > 0 && truthyQ (finalRisk req t) && !truthyQ (finalRiskDollars req t)
  then some ((finalRisk req t).getD 0 / 100 * updBalance req t) else none

/-- The re-derived risk percentage `update_trade` writes in the symmetric
case. -/
def updRiskOverride (req : UpdateRequest) (t : Trade) : Option ℚ :=
  if updBalance req t > 0 && truthyQ (finalRiskDollars req t) && !truthyQ (finalRisk req t)
  then some ((finalRiskDollars req t).getD 0 / updBalance req t * 100) else none

/-- The `PUT /trades/{trade_id}` handler: look the document up by id, check
ownership, merge the supplied fields, re-check the entry validation rules
against the merged record, re-derive the missing risk field against the
resolved final balance, and write the merge. -/
def update_trade (store : List Trade) (trade_id : String) (req : UpdateRequest)
    (current_user : String) (now : ℕ) : Except ApiError (List Trade) :=
  match store.find? (fun t => t.id == trade_id) with
  | none => .error .notFound
  | some t =>
    if t.user_id ≠ current_user then .error .accessDenied
    else if finalStatus req t == "open" && !truthyQ (finalBuy req t) then
      .error .validationError
    else if finalStatus req t == "closed" && !truthyQ (finalSell req t) then
      .error .validationError
    else if !truthyQ (finalRisk req t) && !truthyQ (finalRiskDollars req t) then
      .error .validationError
    else
      .ok (store.map (fun u =>
        if u.id == trade_id
        then applyUpdate u req (updRiskOverride req t) (updRdOverride req t) now
        else u))

/-- The `TradeMetrics` response model. -/
structure TradeMetrics where
  net_pnl : ℚ
  trade_expectancy : ℚ
  profit_factor : ℚ
  win_percentage : ℚ
  avg_win : ℚ
  avg_loss : ℚ
  total_trades : ℕ
  winning_trades : ℕ
  losing_trades : ℕ
deriving DecidableEq, Repr

/-- The all-zero metrics returned when no closed trade qualifies. -/
def zeroMetrics : TradeMetrics :=
  { net_pnl := 0, trade_expectancy := 0, profit_factor := 0, win_percentage := 0
    avg_win := 0, avg_loss := 0, total_trades := 0, winning_trades := 0, losing_trades := 0 }

/-- The filter `get_metrics` applies before computing P&L:
`t['status'] == 'closed' and t.get('sell_price') and t.get('buy_price')`
(Python truthiness of the two prices). -/
def isClosedComplete (t : Trade) : Bool :=
  t.status == "closed" && truthyQ t.sell_price && truthyQ t.buy_price

/-- Per-trade P&L: `(sell_price - buy_price) * shares`. -/
def pnl (t : Trade) : ℚ := (t.sell_price.getD 0 - t.buy_price.getD 0) * t.shares

/-- The trades `get_metrics` computes over. -/
def closedTrades (trades : List Trade) : List Trade := trades.filter isClosedComplete

/-- The P&L list of the qualifying closed trades. -/
def pnlValues (trades : List Trade) : List ℚ := (closedTrades trades).map pnl

/-- The strictly positive P&L values. -/
def winningPnls (trades : List Trade) : List ℚ :=
  (pnlValues trades).filter (fun x => decide (0 < x))

/-- The strictly negative P&L values. -/
def losingPnls (trades : List Trade) : List ℚ :=
  (pnlValues trades).filter (fun x => decide (x < 0))

/-- The metrics computation of `get_metrics` over an already-selected trade
list (lines computing `closed_trades` through the `TradeMetrics` result). -/
def calc_metrics (trades : List Trade) : TradeMetrics :=
  if closedTrades trades = [] then zeroMetrics
  else
    let net_pnl := (pnlValues trades).sum
    let winning := winningPnls trades
    let losing := losingPnls trades
    let total := (closedTrades trades).length
    let win_count := winning.length
    let loss_count := losing.length
    let win_percentage : ℚ := if total > 0 then (win_count : ℚ) / (total : ℚ) * 100 else 0
    let avg_win : ℚ := if win_count > 0 then winning.sum / (win_count : ℚ) else 0
    let avg_loss : ℚ := if loss_count > 0 then |losing.sum / (loss_count : ℚ)| else 0
    let win_pct := win_percentage / 100
    let loss_pct : ℚ := if total > 0 then (loss_count : ℚ) / (total : ℚ) else 0
    let trade_expectancy := win_pct * avg_win - loss_pct * avg_loss
    let gross_profit : ℚ := if winning = [] then 0 else winning.sum
    let gross_loss : ℚ := if losing = [] then 1 else |losing.sum|
    let profit_factor : ℚ := if gross_loss > 0 then gross_profit / gross_loss else 0
    { net_pnl := net_pnl
      trade_expectancy := trade_expectancy
      profit_factor := profit_factor
      win_percentage := win_percentage
      avg_win := avg_win
      avg_loss := avg_loss
      total_trades := total
      winning_trades := win_count
      losing_trades := loss_count }

/-- Lexicographic comparison of character lists by code point, the
semantics of Python's `<` on strings. -/
def lexLtCh : List Char → List Char → Bool
  | [], [] => false
  | [], _ :: _ => true
  | _ :: _, [] => false
  | a :: as, b :: bs =>
    if a.val < b.val then true
    else if b.val < a.val then false
    else lexLtCh as bs

/-- Python's `<` on strings (lexicographic by code point). -/
def lexLt (a b : String) : Bool := lexLtCh a.toList b.toList

/-- Python's `str.startswith`. -/
def beginsWithCh : List Char → List Char → Bool
  | [], _ => true
  | _ :: _, [] => false
  | a :: as, b :: bs => a == b && beginsWithCh as bs

/-- Python's `s.startswith(pre)`. -/
def beginsWith (s pre : String) : Bool := beginsWithCh pre.toList s.toList

/-- The first `n` characters of a string. -/
def strTake (s : String) (n : ℕ) : String := String.mk (s.toList.take n)

/-- The date a trade is ranged on: `exit_date` for a closed trade whose
`exit_date` is truthy, otherwise the entry date. -/
def effDate (t : Trade) : String :=
  if t.status == "closed" && truthyS t.exit_date then t.exit_date.getD "" else t.date

/-- The inclusive range test applied to a date string: fail when a truthy
`from_date` exceeds it or a truthy `to_date` is below it (lexical string
comparison). -/
def inRange (fromD toD : Option String) (d : String) : Bool :=
  !(truthyS fromD && lexLt d (fromD.getD "")) && !(truthyS toD && lexLt (toD.getD "") d)

/-- The user's trades (the `user_id ==` Firestore query). -/
def userTrades (trades : List Trade) (user : String) : List Trade :=
  trades.filter (fun t => t.user_id == user)

/-- The exit_date-aware range filter shared by `get_trades` and the first
filtering stage of `get_metrics`. -/
def rangeFiltered (trades : List Trade) (user : String) (fromD toD : Option String) : List Trade :=
  (userTrades trades user).filter (fun t => inRange fromD toD (effDate t))

/-- The `GET /trades/{user_id}` selection (Firestore branch): the range
filter runs only when a truthy `from_date` or `to_date` was given. -/
def get_trades_filter (trades : List Trade) (user : String)
    (fromD toD : Option String) : List Trade :=
  if truthyS fromD || truthyS toD then rangeFiltered trades user fromD toD
  else userTrades trades user

/-- The trades surviving both filtering stages of `get_metrics`: the
exit_date-aware stage, then the additional stage that ranges every trade on
its entry date alone (skipping trades with a falsy date). -/
def preFallback (trades : List Trade) (user : String) (fromD toD : Option String) : List Trade :=
  (rangeFiltered trades user fromD toD).filter
    (fun t => t.date ≠ "" && inRange fromD toD t.date)

/-- The calendar month `get_metrics` widens to when filtering left nothing:
the month of a truthy `from_date`, else of a truthy `to_date`
(`strptime('%Y-%m-%d')` then `strftime('%Y-%m')`, i.e. the first seven
characters of a well-formed date string). -/
def targetMonth (fromD toD : Option String) : Option String :=
  if truthyS fromD then some (strTake (fromD.getD "") 7)
  else if truthyS toD then some (strTake (toD.getD "") 7)
  else none

/-- The user's trades whose entry date starts with the given month string. -/
def monthTrades (trades : List Trade) (user : String) (m : String) : List Trade :=
  (userTrades trades user).filter (fun t => t.date ≠ "" && beginsWith t.date m)

/-- The trade selection of `GET /metrics/{user_id}` (Firestore branch):
both filtering stages, then — when they matched nothing — the silent
widening to the target month's trades when that set is nonempty. -/
def metricsSelect (trades : List Trade) (user : String)
    (fromD toD : Option String) : List Trade :=
  if truthyS fromD || truthyS toD then
    let t2 := preFallback trades user fromD toD
    if t2 = [] then
      match targetMonth fromD toD with
      | some m => if monthTrades trades user m = [] then t2 else monthTrades trades user m
      | none => t2
    else t2
  else userTrades trades user

/-- The `GET /metrics/{user_id}` handler: metrics over the selected trades. -/
def get_metrics (trades : List Trade) (user : String)
    (fromD toD : Option String) : TradeMetrics :=
  calc_metrics (metricsSelect trades user fromD toD)

/-- The payload of `POST /monthly-returns` (the `MonthlyReturn` pydantic
model before the handler mutates it; `id`, `user_id` and the timestamps are
handler-assigned). -/
structure MonthlyReturnInput where
  month : String
  start_cap : ℚ
  close_cap : Option ℚ := none
  percentage_return : Option ℚ := none
  dollar_return : Option ℚ := none
  inr_return : Option ℚ := none
  comments : String := ""
deriving DecidableEq, Repr

/-- A document of the `monthly_returns` collection. -/
structure MonthlyReturnRec where
  id : String
  user_id : String
  month : String
  start_cap : ℚ
  close_cap : Option ℚ := none
  percentage_return : Option ℚ := none
  dollar_return : Option ℚ := none
  inr_return : Option ℚ := none
  comments : String := ""
  created_at : ℕ := 0
  updated_at : ℕ := 0
deriving DecidableEq, Repr

/-- The (user, month) key lookup of the upsert query. -/
def matchesKey (user month : String) (r : MonthlyReturnRec) : Bool :=
  r.user_id == user && r.month == month

/-- Derivation of the returns when `close_cap` is given: percentage and
dollar returns are filled in from start/close capital when absent. -/
def derivedReturns (mr : MonthlyReturnInput) : Option ℚ × Option ℚ :=
  match mr.close_cap with
  | none => (mr.percentage_return, mr.dollar_return)
  | some cc =>
    ((if mr.percentage_return = none
      then some ((cc - mr.start_cap) / mr.start_cap * 100) else mr.percentage_return),
     (if mr.dollar_return = none then some (cc - mr.start_cap) else mr.dollar_return))

/-- The update written onto an existing monthly-return document: every
non-`None` field of the payload (with the forced user id and the derived
returns) overwrites the stored one; `id` and `created_at` are kept. -/
def mergeMonthlyReturn (r : MonthlyReturnRec) (user : String) (mr : MonthlyReturnInput)
    (pct dollar : Option ℚ) (now : ℕ) : MonthlyReturnRec :=
  { r with
    user_id := user
    month := mr.month
    start_cap := mr.start_cap
    close_cap := if mr.close_cap.isSome then mr.close_cap else r.close_cap
    percentage_return := if pct.isSome then pct else r.percentage_return
    dollar_return := if dollar.isSome then dollar else r.dollar_return
    inr_return := if mr.inr_return.isSome then mr.inr_return else r.inr_return
    comments := mr.comments
    updated_at := now }

/-- A freshly created monthly-return document. -/
def newMonthlyReturn (user : String) (mr : MonthlyReturnInput)
    (pct dollar : Option ℚ) (now : ℕ) (newId : String) : MonthlyReturnRec :=
  { id := newId
    user_id := user
    month := mr.month
    start_cap := mr.start_cap
    close_cap := mr.close_cap
    percentage_return := pct
    dollar_return := dollar
    inr_return := mr.inr_return
    comments := mr.comments
    created_at := now
    updated_at := now }

/-- The `POST /monthly-returns` handler: force the owner, validate month and
start capital, derive the returns, then update the existing (user, month)
document in place when one exists and create a new one otherwise. -/
def upsert_monthly_return (store : List MonthlyReturnRec) (current_user : String)
    (mr : MonthlyReturnInput) (now : ℕ) (newId : String) :
    Except ApiError (List MonthlyReturnRec) :=
  if mr.month == "" then .error .validationError
  else if mr.start_cap ≤ 0 then .error .validationError
  else
    let pd := derivedReturns mr
    match store.filter (matchesKey current_user mr.month) with
    | [] => .ok (store ++ [newMonthlyReturn current_user mr pd.1 pd.2 now newId])
    | _ :: _ =>
      .ok (replaceFirst (matchesKey current_user mr.month)
            (fun r => mergeMonthlyReturn r current_user mr pd.1 pd.2 now) store)

/-- The number of monthly-return documents stored under a (user, month) key. -/
def countKey (store : List MonthlyReturnRec) (user month : String) : ℕ :=
  (store.filter (matchesKey user month)).length

theorem replaceFirst_length {α : Type} (p : α → Bool) (f : α → α) (l : List α) :
    (replaceFirst p f l).length = l.length := by
  induction l with
  | nil => rfl
  | cons a as ih => cases ha : p a <;> simp [replaceFirst, ha, ih]

theorem replaceFirst_of_filter_head {α : Type} {p : α → Bool} {l : List α} {a : α}
    {as : List α} (h : l.filter p = a :: as) (f : α → α) :
    replaceFirst p f l = replaceFirst p (fun _ => f a) l := by
  induction l with
  | nil => simp at h
  | cons b bs ih =>
    cases hb : p b with
    | true =>
      simp only [List.filter_cons, hb, if_true] at h
      obtain ⟨rfl, -⟩ := List.cons.inj h
      simp [replaceFirst, hb]
    | false =>
      simp only [List.filter_cons, hb, if_false] at h
      simp [replaceFirst, hb, ih h]

theorem head_filter_prop {α : Type} {p : α → Bool} {l : List α} {a : α} {as : List α}
    (h : l.filter p = a :: as) : p a = true := by
  have ha : a ∈ l.filter p := by
    rw [h]
    exact List.mem_cons_self a as
  exact (List.mem_filter.mp ha).2

theorem sum_neg_of_mem_neg : ∀ {l : List ℚ}, l ≠ [] → (∀ x ∈ l, x < 0) → l.sum < 0 := by
  intro l
  induction l with
  | nil => intro h; exact absurd rfl h
  | cons a as ih =>
    intro _ hall
    rw [List.sum_cons]
    rcases eq_or_ne as [] with rfl | hne
    · simpa using hall a (List.mem_cons_self a [])
    · have h1 := hall a (List.mem_cons_self a as)
      have h2 := ih hne (fun x hx => hall x (List.mem_cons_of_mem a hx))
      linarith

theorem filter_replaceFirst_length {α : Type} (p : α → Bool) (f : α → α)
    (hf : ∀ a, p (f a) = true) (l : List α) :
    ((replaceFirst p f l).filter p).length = (l.filter p).length := by
  induction l with
  | nil => rfl
  | cons a as ih =>
    cases ha : p a with
    | true => simp [replaceFirst, ha, List.filter_cons, hf a]
    | false => simp [replaceFirst, ha, List.filter_cons, ih]

/-- A sample open trade used as a concrete store for witnesses. -/
def sampleOpenTrade : Trade :=
  { id := "1", user_id := "u", date := "2024-01-01", ticker := "AAPL",
    buy_price := some 10, shares := 10, risk := some 2, notes := "orig", status := "open" }

/-- A sample exit request for 4 of the 10 shares of `sampleOpenTrade`. -/
def sampleExitReq : ExitRequest :=
  { ticker := "AAPL", shares_to_exit := 4, sell_price := 20, notes := "tp" }

/-- C1: exiting `s` shares at price `p` from the located open trade with
current shares `C`, where `0 < s < C` and the remainder `C - s` is not
within `1e-10` of zero, creates a new closed record with `shares = s`,
`sell_price = p`, the original's entry date, buy price, risk and
risk_dollars, `exit_date` set to the current date and an appended
partial-exit note, and updates the original in place to `shares = C - s`
with a refreshed `updated_at` and status still open, yielding one more
record than before. -/
theorem exit_splits_trade_in_two
    (trades : List Trade) (u : String) (req : ExitRequest) (today : String)
    (now : ℕ) (newId : String) (t : Trade) (rest : List Trade)
    (hq : trades.filter (isOpenMatch u req.ticker) = t :: rest)
    (_hpos : 0 < req.shares_to_exit) (hlt : req.shares_to_exit < t.shares)
    (hfar : ¬ |t.shares - req.shares_to_exit| < eps) :
    ∃ leg orig,
      exit_trade trades u u req today now newId =
        .ok (replaceFirst (isOpenMatch u req.ticker) (fun _ => orig) trades ++ [leg])
      ∧ leg.status = "closed"
      ∧ leg.shares = req.shares_to_exit
      ∧ leg.sell_price = some req.sell_price
      ∧ leg.date = t.date
      ∧ leg.buy_price = t.buy_price
      ∧ leg.risk = t.risk
      ∧ leg.risk_dollars = t.risk_dollars
      ∧ leg.exit_date = some today
      ∧ leg.notes = stripPipe (t.notes ++ " | Partial exit: " ++ req.notes)
      ∧ orig = { t with shares := t.shares - req.shares_to_exit, updated_at := now }
      ∧ orig.status = "open"
      ∧ orig.shares = t.shares - req.shares_to_exit
      ∧ orig.updated_at = now
      ∧ (replaceFirst (isOpenMatch u req.ticker) (fun _ => orig) trades ++ [leg]).length =
          trades.length + 1 := by
  have hopen : t.status = "open" := by
    have := head_filter_prop hq
    simp only [isOpenMatch, Bool.and_eq_true, beq_iff_eq] at this
    exact this.2
  refine ⟨exitLegRecord t u req today now newId,
    { t with shares := t.shares - req.shares_to_exit, updated_at := now },
    ?_, rfl, rfl, rfl, rfl, rfl, rfl, rfl, rfl, rfl, rfl, ?_, rfl, rfl, ?_⟩
  · have hne : ¬ (u ≠ u) := fun h => h rfl
    have hnotgt : ¬ (req.shares_to_exit > t.shares) := not_lt.mpr hlt.le
    have hr0 : t.shares - req.shares_to_exit ≠ 0 := sub_ne_zero.mpr (ne_of_gt hlt)
    simp only [exit_trade, hq, if_neg hne, if_neg hnotgt, if_neg hfar, if_neg hr0]
    rw [replaceFirst_of_filter_head hq]
  · exact hopen
  · simp [replaceFirst_length]

/-- Witness for C1 on a concrete store: exiting 4 of 10 `AAPL` shares. -/
theorem exit_splits_trade_in_two_witness :
    ∃ leg orig,
      exit_trade [sampleOpenTrade] "u" "u" sampleExitReq "2024-01-10" 7 "id2" =
        .ok (replaceFirst (isOpenMatch "u" sampleExitReq.ticker) (fun _ => orig)
              [sampleOpenTrade] ++ [leg])
      ∧ leg.status = "closed"
      ∧ leg.shares = sampleExitReq.shares_to_exit
      ∧ leg.sell_price = some sampleExitReq.sell_price
      ∧ leg.date = sampleOpenTrade.date
      ∧ leg.buy_price = sampleOpenTrade.buy_price
      ∧ leg.risk = sampleOpenTrade.risk
      ∧ leg.risk_dollars = sampleOpenTrade.risk_dollars
      ∧ leg.exit_date = some "2024-01-10"
      ∧ leg.notes = stripPipe (sampleOpenTrade.notes ++ " | Partial exit: " ++ sampleExitReq.notes)
      ∧ orig = { sampleOpenTrade with
                 shares := sampleOpenTrade.shares - sampleExitReq.shares_to_exit,
                 updated_at := 7 }
      ∧ orig.status = "open"
      ∧ orig.shares = sampleOpenTrade.shares - sampleExitReq.shares_to_exit
      ∧ orig.updated_at = 7
      ∧ (replaceFirst (isOpenMatch "u" sampleExitReq.ticker) (fun _ => orig)
            [sampleOpenTrade] ++ [leg]).length = [sampleOpenTrade].length + 1 :=
  exit_splits_trade_in_two [sampleOpenTrade] "u" sampleExitReq "2024-01-10" 7 "id2"
    sampleOpenTrade [] (by decide) (by decide) (by decide)
    (by norm_num [sampleOpenTrade, sampleExitReq, eps])

/-- An exit request overshooting `sampleOpenTrade`'s 10 shares by `1e-11`. -/
def overshootExitReq : ExitRequest :=
  { ticker := "AAPL", shares_to_exit := 10 + 1 / 10 ^ 11, sell_price := 20, notes := "tp" }

/-- Counterexample to C2 as stated: for this request the remaining shares
`C - s` have absolute value below `1e-10`, yet the exit is rejected with a
`ValidationError` (the `shares_to_exit > current_shares` check runs before
the epsilon test), so no record is mutated. -/
theorem exit_within_epsilon_counterexample :
    |sampleOpenTrade.shares - overshootExitReq.shares_to_exit| < eps
    ∧ exit_trade [sampleOpenTrade] "u" "u" overshootExitReq "2024-01-10" 7 "id2" =
        .error .validationError
    ∧ applyExit [sampleOpenTrade] "u" "u" overshootExitReq "2024-01-10" 7 "id2" =
        [sampleOpenTrade] := by
  have hq : [sampleOpenTrade].filter (isOpenMatch "u" overshootExitReq.ticker) =
      [sampleOpenTrade] := by decide
  have hne : ¬ (("u" : String) ≠ "u") := fun h => h rfl
  have hgt : overshootExitReq.shares_to_exit > sampleOpenTrade.shares := by
    norm_num [sampleOpenTrade, overshootExitReq]
  have he : exit_trade [sampleOpenTrade] "u" "u" overshootExitReq "2024-01-10" 7 "id2" =
      .error .validationError := by
    simp only [exit_trade, hq, if_neg hne, if_pos hgt]
  refine ⟨?_, he, by simp only [applyExit, he]⟩
  have h : sampleOpenTrade.shares - overshootExitReq.shares_to_exit = -(1 / 10 ^ 11 : ℚ) := by
    norm_num [sampleOpenTrade, overshootExitReq]
  rw [h, abs_neg, abs_of_pos (by norm_num)]
  norm_num [eps]

/-- C2 (amended): for an exit request with `s ≤ C` whose remaining shares
`C - s` have absolute value below `1e-10` (treated as exactly zero), the
exit mutates the located open record in place — status closed, shares set
to the exited amount `s`, `sell_price` to the given price, `exit_date` to
the current date, the exit note appended when one is given, `updated_at`
refreshed — and no new record is created (the collection keeps its length).
The amendment adds `s ≤ C`: when `s` exceeds `C`, even by less than the
epsilon, the validation check fires first and nothing is mutated. -/
theorem exit_full_mutates_in_place
    (trades : List Trade) (u : String) (req : ExitRequest) (today : String)
    (now : ℕ) (newId : String) (t : Trade) (rest : List Trade)
    (hq : trades.filter (isOpenMatch u req.ticker) = t :: rest)
    (hle : req.shares_to_exit ≤ t.shares)
    (hnear : |t.shares - req.shares_to_exit| < eps) :
    exit_trade trades u u req today now newId =
      .ok (replaceFirst (isOpenMatch u req.ticker)
            (fun _ => fullExitUpdate req today now t) trades)
    ∧ (fullExitUpdate req today now t).status = "closed"
    ∧ (fullExitUpdate req today now t).shares = req.shares_to_exit
    ∧ (fullExitUpdate req today now t).sell_price = some req.sell_price
    ∧ (fullExitUpdate req today now t).exit_date = some today
    ∧ (fullExitUpdate req today now t).updated_at = now
    ∧ (req.notes ≠ "" →
        (fullExitUpdate req today now t).notes =
          stripPipe (t.notes ++ " | Exit: " ++ req.notes))
    ∧ (replaceFirst (isOpenMatch u req.ticker)
        (fun _ => fullExitUpdate req today now t) trades).length = trades.length := by
  refine ⟨?_, rfl, rfl, rfl, rfl, rfl, ?_, replaceFirst_length _ _ _⟩
  · have hne : ¬ (u ≠ u) := fun h => h rfl
    have hnotgt : ¬ (req.shares_to_exit > t.shares) := not_lt.mpr hle
    simp only [exit_trade, hq, if_neg hne, if_neg hnotgt, if_pos hnear,
      eq_self_iff_true, if_true]
    rw [replaceFirst_of_filter_head hq]
  · intro hn
    simp only [fullExitUpdate, if_pos hn]

/-- Witness for C2 (amended) on a concrete store: exiting all 10 shares. -/
theorem exit_full_mutates_in_place_witness :
    exit_trade [sampleOpenTrade] "u" "u" { sampleExitReq with shares_to_exit := 10 }
      "2024-01-10" 7 "id2" =
      .ok (replaceFirst (isOpenMatch "u" sampleExitReq.ticker)
            (fun _ => fullExitUpdate { sampleExitReq with shares_to_exit := 10 }
                        "2024-01-10" 7 sampleOpenTrade) [sampleOpenTrade])
    ∧ (fullExitUpdate { sampleExitReq with shares_to_exit := 10 }
        "2024-01-10" 7 sampleOpenTrade).status = "closed"
    ∧ (fullExitUpdate { sampleExitReq with shares_to_exit := 10 }
        "2024-01-10" 7 sampleOpenTrade).shares = 10
    ∧ (fullExitUpdate { sampleExitReq with shares_to_exit := 10 }
        "2024-01-10" 7 sampleOpenTrade).sell_price = some 20
    ∧ (fullExitUpdate { sampleExitReq with shares_to_exit := 10 }
        "2024-01-10" 7 sampleOpenTrade).exit_date = some "2024-01-10"
    ∧ (fullExitUpdate { sampleExitReq with shares_to_exit := 10 }
        "2024-01-10" 7 sampleOpenTrade).updated_at = 7
    ∧ (("tp" : String) ≠ "" →
        (fullExitUpdate { sampleExitReq with shares_to_exit := 10 }
          "2024-01-10" 7 sampleOpenTrade).notes =
          stripPipe (sampleOpenTrade.notes ++ " | Exit: " ++ "tp"))
    ∧ (replaceFirst (isOpenMatch "u" sampleExitReq.ticker)
        (fun _ => fullExitUpdate { sampleExitReq with shares_to_exit := 10 }
                    "2024-01-10" 7 sampleOpenTrade) [sampleOpenTrade]).length =
        [sampleOpenTrade].length :=
  exit_full_mutates_in_place [sampleOpenTrade] "u"
    { sampleExitReq with shares_to_exit := 10 } "2024-01-10" 7 "id2"
    sampleOpenTrade [] (by decide) (by decide)
    (by norm_num [sampleOpenTrade, sampleExitReq, eps])

/-- C7: an exit against a (owner, ticker) pair with no open trade fails with
`NotFoundError`; an exit whose share count exceeds the located open trade's
current shares fails with `ValidationError`; in both cases the trades
collection is unchanged. -/
theorem exit_failures_leave_store_unchanged
    (trades : List Trade) (u : String) (req : ExitRequest) (today : String)
    (now : ℕ) (newId : String) :
    (trades.filter (isOpenMatch u req.ticker) = [] →
       exit_trade trades u u req today now newId = .error .notFound
       ∧ applyExit trades u u req today now newId = trades)
    ∧ (∀ t rest, trades.filter (isOpenMatch u req.ticker) = t :: rest →
         t.shares < req.shares_to_exit →
         exit_trade trades u u req today now newId = .error .validationError
         ∧ applyExit trades u u req today now newId = trades) := by
  have hne : ¬ (u ≠ u) := fun h => h rfl
  constructor
  · intro h
    have he : exit_trade trades u u req today now newId = .error .notFound := by
      simp only [exit_trade, h, if_neg hne]
    exact ⟨he, by simp only [applyExit, he]⟩
  · intro t rest h hgt
    have he : exit_trade trades u u req today now newId = .error .validationError := by
      simp only [exit_trade, h, if_neg hne, if_pos hgt]
    exact ⟨he, by simp only [applyExit, he]⟩

/-- Witness for C7: a store with no open `TSLA` trade yields `NotFoundError`;
requesting 15 of the 10 open `AAPL` shares yields `ValidationError`; the
store is unchanged both times. -/
theorem exit_failures_leave_store_unchanged_witness :
    (exit_trade [sampleOpenTrade] "u" "u" { sampleExitReq with ticker := "TSLA" }
        "2024-01-10" 7 "id2" = .error .notFound
     ∧ applyExit [sampleOpenTrade] "u" "u" { sampleExitReq with ticker := "TSLA" }
        "2024-01-10" 7 "id2" = [sampleOpenTrade])
    ∧ (exit_trade [sampleOpenTrade] "u" "u" { sampleExitReq with shares_to_exit := 15 }
        "2024-01-10" 7 "id2" = .error .validationError
     ∧ applyExit [sampleOpenTrade] "u" "u" { sampleExitReq with shares_to_exit := 15 }
        "2024-01-10" 7 "id2" = [sampleOpenTrade]) :=
  ⟨(exit_failures_leave_store_unchanged [sampleOpenTrade] "u"
      { sampleExitReq with ticker := "TSLA" } "2024-01-10" 7 "id2").1 (by decide),
   (exit_failures_leave_store_unchanged [sampleOpenTrade] "u"
      { sampleExitReq with shares_to_exit := 15 } "2024-01-10" 7 "id2").2
     sampleOpenTrade [] (by decide) (by decide)⟩

/-- A closed trade with a winning P&L of `2`. -/
def tWin : Trade :=
  { id := "w", user_id := "u", date := "2024-01-02", ticker := "A",
    buy_price := some 1, sell_price := some 3, shares := 1, status := "closed" }

/-- A closed trade with a losing P&L of `-1/2`. -/
def tLoss : Trade :=
  { id := "l", user_id := "u", date := "2024-01-03", ticker := "B",
    buy_price := some 1, sell_price := some (1/2), shares := 1, status := "closed" }

/-- A closed trade whose sell price is present and numeric but zero. -/
def zeroSellTrade : Trade :=
  { id := "z", user_id := "u", date := "2024-01-02", ticker := "C",
    buy_price := some 10, sell_price := some 0, shares := 5, status := "closed" }

/-- Following the spec's words (§3 invariant): a trade is closed-complete
iff status is closed and buy_price, sell_price and shares are all present
and numeric (shares is always present in the data model). -/
def specClosedComplete (t : Trade) : Bool :=
  t.status == "closed" && t.buy_price.isSome && t.sell_price.isSome

/-- Following the spec's words: net P&L summed over the spec's
closed-complete subset. -/
def specNetPnl (trades : List Trade) : ℚ :=
  ((trades.filter specClosedComplete).map pnl).sum

/-- Counterexample to C3 as stated: a closed trade whose sell price is
present and numeric but equal to zero is closed-complete per the spec's
subset (net P&L `-50`), yet the code's truthiness filter drops it and the
metrics come back all zero. -/
theorem metrics_subset_counterexample :
    specClosedComplete zeroSellTrade = true
    ∧ specNetPnl [zeroSellTrade] = -50
    ∧ calc_metrics [zeroSellTrade] = zeroMetrics
    ∧ (calc_metrics [zeroSellTrade]).net_pnl ≠ specNetPnl [zeroSellTrade] := by
  have hf : [zeroSellTrade].filter specClosedComplete = [zeroSellTrade] := by decide
  have hs : specNetPnl [zeroSellTrade] = -50 := by
    rw [specNetPnl, hf]
    norm_num [pnl, zeroSellTrade]
  have hz : calc_metrics [zeroSellTrade] = zeroMetrics := by rfl
  refine ⟨by decide, hs, hz, ?_⟩
  rw [hs, hz]
  norm_num [zeroMetrics]

/-- C3 (amended): the metrics computation restricts to the trades with
status closed and truthy (present and nonzero) buy and sell prices,
assigns each `pnl = (sell_price - buy_price) * shares`, and returns
`net_pnl` as their sum; when that subset is empty every returned metric is
zero. The amendment replaces the spec's "present and numeric" by the
code's Python-truthiness test, which also drops prices equal to zero. -/
theorem metrics_net_pnl_sums_closed (trades : List Trade) :
    (calc_metrics trades).net_pnl = ((trades.filter isClosedComplete).map pnl).sum
    ∧ (trades.filter isClosedComplete = [] → calc_metrics trades = zeroMetrics) := by
  constructor
  · by_cases h : closedTrades trades = []
    · rw [closedTrades] at h
      simp [calc_metrics, closedTrades, h, zeroMetrics]
    · rw [closedTrades] at h
      simp [calc_metrics, closedTrades, h, pnlValues]
  · intro h
    simp [calc_metrics, closedTrades, h]

/-- Witness for C3 (amended): evaluated on a two-trade store and on the
empty store. -/
theorem metrics_net_pnl_sums_closed_witness :
    (calc_metrics [tWin, tLoss]).net_pnl =
      (([tWin, tLoss].filter isClosedComplete).map pnl).sum
    ∧ calc_metrics [] = zeroMetrics :=
  ⟨(metrics_net_pnl_sums_closed [tWin, tLoss]).1,
   (metrics_net_pnl_sums_closed []).2 rfl⟩

/-- Following the spec's words: `profit_factor` as gross profit divided by
the gross loss floored at 1. -/
def specProfitFactor (trades : List Trade) : ℚ :=
  (winningPnls trades).sum / max |(losingPnls trades).sum| 1

/-- Counterexample to C4 as stated: with one winning P&L `2` and one losing
P&L `-1/2`, the code divides by the actual gross loss `1/2` and returns
`4`, while the spec's formula `gross_profit / max(gross_loss, 1)` yields
`2` — the code applies no floor when losing trades exist. -/
theorem profit_factor_counterexample :
    (calc_metrics [tWin, tLoss]).profit_factor = 4
    ∧ specProfitFactor [tWin, tLoss] = 2
    ∧ (calc_metrics [tWin, tLoss]).profit_factor ≠ specProfitFactor [tWin, tLoss] := by
  have hclosed : closedTrades [tWin, tLoss] = [tWin, tLoss] := by
    norm_num [closedTrades, List.filter_cons, isClosedComplete, truthyQ, tWin, tLoss]
  have hpnl : pnlValues [tWin, tLoss] = [2, -(1/2)] := by
    rw [pnlValues, hclosed]
    norm_num [pnl, tWin, tLoss]
  have hwin : winningPnls [tWin, tLoss] = [2] := by
    rw [winningPnls, hpnl]
    norm_num [List.filter_cons]
  have hlos : losingPnls [tWin, tLoss] = [-(1/2)] := by
    rw [losingPnls, hpnl]
    norm_num [List.filter_cons]
  have habs : |(-(1/2) : ℚ)| = 1/2 := by
    rw [abs_neg, abs_of_pos] ; norm_num

  have hne2 : ([tWin, tLoss] : List Trade) ≠ [] := by simp
  have h1 : (calc_metrics [tWin, tLoss]).profit_factor = 4 := by
    simp only [calc_metrics, hclosed, hwin, hlos, if_neg hne2]
    norm_num [habs]
  have h2 : specProfitFactor [tWin, tLoss] = 2 := by
    have hsum : ([-(1/2 : ℚ)]).sum = -(1/2) := by simp
    simp only [specProfitFactor, hwin, hlos, hsum, habs]
    rw [max_eq_right (by norm_num : (1/2 : ℚ) ≤ 1)]
    norm_num
  refine ⟨h1, h2, ?_⟩
  rw [h1, h2]
  norm_num

/-- C4 (amended): the returned profit factor is
`gross_profit / gross_loss` exactly when at least one losing trade exists
(`gross_loss = |Σ negative P&L|`, with no flooring), and equals
`gross_profit` when there are zero losing trades (the 1 replaces the gross
loss only in that case); either way the result is a rational number, never
infinite or NaN. -/
theorem profit_factor_amended (trades : List Trade) :
    (losingPnls trades = [] →
       (calc_metrics trades).profit_factor = (winningPnls trades).sum)
    ∧ (losingPnls trades ≠ [] →
       (calc_metrics trades).profit_factor =
         (winningPnls trades).sum / |(losingPnls trades).sum|) := by
  by_cases hc : closedTrades trades = []
  · have hw : winningPnls trades = [] := by simp [winningPnls, pnlValues, hc]
    have hl : losingPnls trades = [] := by simp [losingPnls, pnlValues, hc]
    exact ⟨fun _ => by simp [calc_metrics, hc, zeroMetrics, hw],
           fun hne => absurd hl hne⟩
  · constructor
    · intro hl
      by_cases hw : winningPnls trades = [] <;>
        simp [calc_metrics, hc, hl, hw]
    · intro hl
      have hneg : ∀ x ∈ losingPnls trades, x < 0 := fun x hx =>
        of_decide_eq_true (List.mem_filter.mp hx).2
      have hsum : (losingPnls trades).sum < 0 := sum_neg_of_mem_neg hl hneg
      have habs : (0:ℚ) < |(losingPnls trades).sum| := abs_pos.mpr (ne_of_lt hsum)
      by_cases hw : winningPnls trades = [] <;>
        simp [calc_metrics, hc, hl, hw, habs]

/-- A closed trade with an integer losing P&L of `-2`. -/
def tLossInt : Trade :=
  { id := "li", user_id := "u", date := "2024-01-04", ticker := "D",
    buy_price := some 3, sell_price := some 1, shares := 1, status := "closed" }

/-- Witness for C4 (amended): evaluated on a two-trade store with a loser
and on a store with only the winner. -/
theorem profit_factor_amended_witness :
    (calc_metrics [tWin, tLossInt]).profit_factor =
      (winningPnls [tWin, tLossInt]).sum / |(losingPnls [tWin, tLossInt]).sum|
    ∧ (calc_metrics [tWin]).profit_factor = (winningPnls [tWin]).sum :=
  ⟨(profit_factor_amended [tWin, tLossInt]).2 (by
      have h : losingPnls [tWin, tLossInt] = [-2] := by
        norm_num [losingPnls, pnlValues, closedTrades, List.filter_cons,
          isClosedComplete, truthyQ, pnl, tWin, tLossInt]
      simp [h]),
   (profit_factor_amended [tWin]).1 (by
      norm_num [losingPnls, pnlValues, closedTrades, List.filter_cons,
        isClosedComplete, truthyQ, pnl, tWin])⟩

/-- A closed trade entered 2024-01-01 and exited 2024-01-10. -/
def tExitIn : Trade :=
  { id := "a", user_id := "u", date := "2024-01-01", exit_date := some "2024-01-10",
    ticker := "A", buy_price := some 10, sell_price := some 20, shares := 1,
    status := "closed" }

/-- An open trade entered 2024-01-06. -/
def tOpenIn : Trade :=
  { id := "b", user_id := "u", date := "2024-01-06", ticker := "B",
    buy_price := some 5, shares := 1, status := "open" }

/-- Counterexample to C5 as stated: in a metrics query the membership of a
trade is not decided by the exit_date test alone. `tExitIn`'s effective
date (its exit_date 2024-01-10) lies inside [2024-01-05, 2024-01-15], yet
the metrics selection drops it — the second filtering stage ranges on the
entry date 2024-01-01 alone, and the presence of `tOpenIn` keeps the
filtered set nonempty so no fallback rescues it. -/
theorem date_filter_counterexample :
    inRange (some "2024-01-05") (some "2024-01-15") (effDate tExitIn) = true
    ∧ effDate tExitIn = "2024-01-10"
    ∧ metricsSelect [tExitIn, tOpenIn] "u" (some "2024-01-05") (some "2024-01-15") = [tOpenIn]
    ∧ tExitIn ∉ metricsSelect [tExitIn, tOpenIn] "u" (some "2024-01-05") (some "2024-01-15") := by
  refine ⟨by decide, by decide, by decide, by decide⟩

/-- C5 (amended): for trade-listing queries with a truthy bound, membership
is exactly the inclusive lexical range test on the effective date
(exit_date for a closed trade with a truthy exit_date, else the entry
date), and the spec's example holds: the closed trade entered 2024-01-01
and exited 2024-01-10 is listed for [2024-01-05, 2024-01-15] and not for
[2023-12-01, 2023-12-31]. For metrics queries a second stage additionally
requires the entry date itself to be in range (with a calendar-month
fallback when nothing survives); on a store holding only that trade the
example outcomes still hold for metrics. -/
theorem date_filter_listing_semantics :
    (∀ (trades : List Trade) (user : String) (fromD toD : Option String) (x : Trade),
       (truthyS fromD || truthyS toD) = true →
       (x ∈ get_trades_filter trades user fromD toD ↔
         x ∈ trades ∧ x.user_id = user ∧ inRange fromD toD (effDate x) = true))
    ∧ get_trades_filter [tExitIn] "u" (some "2024-01-05") (some "2024-01-15") = [tExitIn]
    ∧ get_trades_filter [tExitIn] "u" (some "2023-12-01") (some "2023-12-31") = []
    ∧ metricsSelect [tExitIn] "u" (some "2024-01-05") (some "2024-01-15") = [tExitIn]
    ∧ metricsSelect [tExitIn] "u" (some "2023-12-01") (some "2023-12-31") = [] := by
  refine ⟨?_, by decide, by decide, by decide, by decide⟩
  intro trades user fromD toD x h
  simp only [get_trades_filter, h, if_true, rangeFiltered, userTrades, List.mem_filter,
    beq_iff_eq, and_assoc]

/-- Witness for C5 (amended): the membership characterization evaluated on
a concrete two-trade listing query. -/
theorem date_filter_listing_semantics_witness :
    tOpenIn ∈ get_trades_filter [tExitIn, tOpenIn] "u" (some "2024-01-05") (some "2024-01-15") ↔
      tOpenIn ∈ [tExitIn, tOpenIn] ∧ tOpenIn.user_id = "u"
        ∧ inRange (some "2024-01-05") (some "2024-01-15") (effDate tOpenIn) = true :=
  date_filter_listing_semantics.1 [tExitIn, tOpenIn] "u"
    (some "2024-01-05") (some "2024-01-15") tOpenIn (by decide)

/-- C10: when a metrics query with a truthy date bound matches zero trades
after both filtering stages, the endpoint widens to the calendar month of
`from_date` (or of `to_date` when `from_date` is absent) and, when any of
the user's trades have an entry date in that month, computes the metrics
over those trades instead. -/
theorem metrics_month_fallback
    (trades : List Trade) (user : String) (fromD toD : Option String) (m : String)
    (hc : (truthyS fromD || truthyS toD) = true)
    (h2 : preFallback trades user fromD toD = [])
    (hm : targetMonth fromD toD = some m)
    (hmt : monthTrades trades user m ≠ []) :
    metricsSelect trades user fromD toD = monthTrades trades user m
    ∧ get_metrics trades user fromD toD = calc_metrics (monthTrades trades user m)
    ∧ (∀ f, fromD = some f → f ≠ "" → m = strTake f 7)
    ∧ (fromD = none → ∀ g, toD = some g → g ≠ "" → m = strTake g 7) := by
  have hsel : metricsSelect trades user fromD toD = monthTrades trades user m := by
    simp [metricsSelect, hc, h2, hm, hmt]
  refine ⟨hsel, by rw [get_metrics, hsel], ?_, ?_⟩
  · intro f hf hf'
    rw [hf] at hm
    simp only [targetMonth, truthyS, bne_iff_ne, ne_eq, hf', not_false_eq_true,
      if_true, Option.getD_some] at hm
    exact (Option.some.inj hm).symm
  · intro hf g hg hg'
    rw [hf, hg] at hm
    simp only [targetMonth, truthyS, bne_iff_ne, ne_eq, hg', not_false_eq_true,
      if_true, if_false, Option.getD_some] at hm
    exact (Option.some.inj hm).symm

/-- Witness for C10: a query window [2024-02-05, 2024-02-15] matching
nothing falls back to the month 2024-02 — but here instantiated on the
concrete store whose only trade was entered in the month of the from
date. -/
theorem metrics_month_fallback_witness :
    metricsSelect [tExitIn] "u" (some "2024-01-20") (some "2024-01-25") =
      monthTrades [tExitIn] "u" "2024-01"
    ∧ get_metrics [tExitIn] "u" (some "2024-01-20") (some "2024-01-25") =
        calc_metrics (monthTrades [tExitIn] "u" "2024-01")
    ∧ (∀ f, (some "2024-01-20" : Option String) = some f → f ≠ "" →
        "2024-01" = strTake f 7)
    ∧ ((some "2024-01-20" : Option String) = none →
        ∀ g, (some "2024-01-25" : Option String) = some g → g ≠ "" →
          "2024-01" = strTake g 7) :=
  metrics_month_fallback [tExitIn] "u" (some "2024-01-20") (some "2024-01-25") "2024-01"
    (by decide) (by decide) (by decide) (by decide)

/-- A trade entry supplying only the risk percentage (2%). -/
def riskPctInput : TradeInput :=
  { user_id := "x", date := "2024-02-01", ticker := "AAPL",
    buy_price := some 100, shares := 10, risk := some 2, status := "open" }

/-- A trade entry supplying only the risk dollars (150). -/
def riskDollarsInput : TradeInput :=
  { riskPctInput with risk := none, risk_dollars := some 150 }

/-- C6: for a trade entry passing the price validations whose resolved
account balance is positive, when only the risk percentage is supplied the
stored trade carries `risk_dollars = (risk / 100) * balance`, and when only
the dollar risk is supplied it carries `risk = (risk_dollars / balance) *
100`; in both cases the resolved balance is snapshotted onto the stored
trade. -/
theorem risk_derivation (input : TradeInput) (cu : String) (pb : ℚ)
    (now : ℕ) (newId : String)
    (h1 : (input.status == "open" && !truthyQ input.buy_price) = false)
    (h2 : (input.status == "closed" && !truthyQ input.sell_price) = false)
    (hbal : 0 < resolvedBalance input pb) :
    (∀ r, input.risk = some r → r ≠ 0 → input.risk_dollars = none →
       ∃ tr, add_trade input cu pb now newId = .ok tr
         ∧ tr.risk = some r
         ∧ tr.risk_dollars = some (r / 100 * resolvedBalance input pb)
         ∧ tr.account_balance = some (resolvedBalance input pb))
    ∧ (∀ d, input.risk_dollars = some d → d ≠ 0 → input.risk = none →
       ∃ tr, add_trade input cu pb now newId = .ok tr
         ∧ tr.risk_dollars = some d
         ∧ tr.risk = some (d / resolvedBalance input pb * 100)
         ∧ tr.account_balance = some (resolvedBalance input pb)) := by
  constructor
  · intro r hr hr0 hrd
    have htr : truthyQ input.risk = true := by simp [truthyQ, hr, hr0]
    have htd : truthyQ input.risk_dollars = false := by simp [truthyQ, hrd]
    have hmain : add_trade input cu pb now newId = .ok
        { id := newId, user_id := cu, date := input.date, exit_date := none,
          ticker := input.ticker, buy_price := input.buy_price,
          sell_price := input.sell_price, shares := input.shares,
          risk := input.risk,
          risk_dollars := some (input.risk.getD 0 / 100 * resolvedBalance input pb),
          account_balance := some (resolvedBalance input pb), notes := input.notes,
          status := input.status, created_at := now, updated_at := now } := by
      simp only [add_trade, h1, h2, htr, htd, gt_iff_lt, hbal, Bool.not_true,
        Bool.not_false, Bool.false_and, Bool.true_and, Bool.and_true, Bool.and_false,
        Bool.false_eq_true, if_false, if_true]
    exact ⟨_, hmain, hr, by simp [hr], rfl⟩
  · intro d hd hd0 hrn
    have htr : truthyQ input.risk = false := by simp [truthyQ, hrn]
    have htd : truthyQ input.risk_dollars = true := by simp [truthyQ, hd, hd0]
    have hmain : add_trade input cu pb now newId = .ok
        { id := newId, user_id := cu, date := input.date, exit_date := none,
          ticker := input.ticker, buy_price := input.buy_price,
          sell_price := input.sell_price, shares := input.shares,
          risk := some (input.risk_dollars.getD 0 / resolvedBalance input pb * 100),
          risk_dollars := input.risk_dollars,
          account_balance := some (resolvedBalance input pb), notes := input.notes,
          status := input.status, created_at := now, updated_at := now } := by
      simp only [add_trade, h1, h2, htr, htd, gt_iff_lt, hbal, Bool.not_true,
        Bool.not_false, Bool.false_and, Bool.true_and, Bool.and_true, Bool.and_false,
        Bool.false_eq_true, if_false, if_true]
    exact ⟨_, hmain, hd, by simp [hd], rfl⟩

/-- Witness for C6: risk 2% at balance 10000 derives 200 dollars; 150
dollars at balance 10000 derives 1.5%. -/
theorem risk_derivation_witness :
    (∃ tr, add_trade riskPctInput "u1" 10000 5 "tid" = .ok tr
       ∧ tr.risk = some 2
       ∧ tr.risk_dollars = some 200
       ∧ tr.account_balance = some 10000)
    ∧ (∃ tr, add_trade riskDollarsInput "u1" 10000 5 "tid" = .ok tr
       ∧ tr.risk_dollars = some 150
       ∧ tr.risk = some (3/2)
       ∧ tr.account_balance = some 10000) := by
  have hb1 : resolvedBalance riskPctInput 10000 = 10000 := by
    simp [resolvedBalance, riskPctInput, truthyQ]
  have hb2 : resolvedBalance riskDollarsInput 10000 = 10000 := by
    simp [resolvedBalance, riskDollarsInput, riskPctInput, truthyQ]
  constructor
  · obtain ⟨tr, hok, hrisk, hrd, hacct⟩ :=
      (risk_derivation riskPctInput "u1" 10000 5 "tid" (by decide) (by decide)
        (by rw [hb1]; norm_num)).1 2 rfl (by norm_num) rfl
    exact ⟨tr, hok, hrisk, by rw [hrd, hb1]; norm_num, by rw [hacct, hb1]⟩
  · obtain ⟨tr, hok, hrd, hrisk, hacct⟩ :=
      (risk_derivation riskDollarsInput "u1" 10000 5 "tid" (by decide) (by decide)
        (by rw [hb2]; norm_num)).2 150 rfl (by norm_num) rfl
    exact ⟨tr, hok, hrd, by rw [hrisk, hb2]; norm_num, by rw [hacct, hb2]⟩

/-- A trade entry whose ticker is supplied in lowercase. -/
def lowercaseTickerInput : TradeInput :=
  { user_id := "x", date := "2024-02-01", ticker := "aapl",
    buy_price := some 100, shares := 10, risk := some 2, status := "open" }

/-- Counterexample to C9 as stated: the trade-entry operation persists the
supplied ticker verbatim — `add_trade` with ticker "aapl" stores "aapl",
not the uppercase form. -/
theorem ticker_uppercase_counterexample :
    (add_trade lowercaseTickerInput "u1" 10000 5 "tid").map Trade.ticker = .ok "aapl"
    ∧ strUpper "aapl" = "AAPL"
    ∧ ("aapl" : String) ≠ "AAPL" := by
  refine ⟨rfl, by decide, by decide⟩

/-- Every successful `update_trade` writes the merged document (via
`applyUpdate` with the risk overrides the handler computed) over every
stored document carrying the target id. -/
theorem update_trade_ok_shape (store : List Trade) (tid : String) (req : UpdateRequest)
    (cu : String) (now : ℕ) (store' : List Trade)
    (h : update_trade store tid req cu now = .ok store') :
    ∃ rOv dOv, store' =
      store.map (fun u => if u.id == tid then applyUpdate u req rOv dOv now else u) := by
  rw [update_trade] at h
  split at h
  · exact absurd h (by simp)
  · split at h
    · exact absurd h (by simp)
    · split at h
      · exact absurd h (by simp)
      · split at h
        · exact absurd h (by simp)
        · split at h
          · exact absurd h (by simp)
          · exact ⟨_, _, (Except.ok.inj h).symm⟩

/-- C9 (amended): only the trade-update operation case-normalizes the
instrument symbol — a successful update with a supplied ticker `s`
persists `s.toUpper` on the targeted record — while the trade-entry
operation persists the supplied ticker unchanged. -/
theorem ticker_case_amended :
    (∀ (store : List Trade) (tid : String) (req : UpdateRequest) (cu : String)
       (now : ℕ) (s : String) (store' : List Trade),
       req.ticker = some s →
       update_trade store tid req cu now = .ok store' →
       ∀ u ∈ store', u.id = tid → u.ticker = strUpper s)
    ∧ (∀ (input : TradeInput) (cu : String) (pb : ℚ) (now : ℕ) (newId : String)
         (tr : Trade),
       add_trade input cu pb now newId = .ok tr → tr.ticker = input.ticker) := by
  constructor
  · intro store tid req cu now s store' hs h u hu hid
    obtain ⟨rOv, dOv, rfl⟩ := update_trade_ok_shape store tid req cu now store' h
    obtain ⟨v, hv, rfl⟩ := List.mem_map.mp hu
    by_cases hvid : (v.id == tid) = true
    · simp only [hvid, if_true, applyUpdate, hs]
      rfl
    · rw [if_neg (by simp [hvid])] at hid ⊢
      exact absurd (beq_iff_eq.mpr hid) (by simp [hvid])
  · intro input cu pb now newId tr h
    rw [add_trade] at h
    split at h
    · exact absurd h (by simp)
    · split at h
      · exact absurd h (by simp)
      · split at h
        · exact absurd h (by simp)
        · dsimp only at h
          split at h
          · have h2 := Except.ok.inj h
            subst h2
            rfl
          · have h2 := Except.ok.inj h
            subst h2
            rfl

/-- A partial update supplying only a lowercase ticker. -/
def demoUpdateReq : UpdateRequest := { ticker := some "msft" }

/-- Witness for C9 (amended): the concrete update stores "MSFT"; the
concrete entry with ticker "aapl" stores "aapl". -/
theorem ticker_case_amended_witness :
    (applyUpdate sampleOpenTrade demoUpdateReq none none 9).ticker = strUpper "msft"
    ∧ { id := "tid", user_id := "u1", date := "2024-02-01", exit_date := none,
        ticker := "aapl", buy_price := some 100, sell_price := none, shares := 10,
        risk := some 2, risk_dollars := some (2 / 100 * 10000),
        account_balance := some 10000, notes := "", status := "open",
        created_at := 5, updated_at := 5 : Trade }.ticker = lowercaseTickerInput.ticker := by
  constructor
  · exact ticker_case_amended.1 [sampleOpenTrade] "1" demoUpdateReq "u" 9 "msft"
      [applyUpdate sampleOpenTrade demoUpdateReq none none 9] rfl rfl
      (applyUpdate sampleOpenTrade demoUpdateReq none none 9)
      (List.mem_singleton.mpr rfl) rfl
  · exact ticker_case_amended.2 lowercaseTickerInput "u1" 10000 5 "tid" _ rfl

theorem mergeMonthlyReturn_matches (r : MonthlyReturnRec) (user : String)
    (mr : MonthlyReturnInput) (pct dollar : Option ℚ) (now : ℕ) :
    matchesKey user mr.month (mergeMonthlyReturn r user mr pct dollar now) = true := by
  simp [matchesKey, mergeMonthlyReturn]

theorem newMonthlyReturn_matches (user : String) (mr : MonthlyReturnInput)
    (pct dollar : Option ℚ) (now : ℕ) (newId : String) :
    matchesKey user mr.month (newMonthlyReturn user mr pct dollar now newId) = true := by
  simp [matchesKey, newMonthlyReturn]

/-- A successful upsert either appended a fresh record (no existing match)
or replaced the first matching record in place. -/
theorem upsert_ok_cases (store : List MonthlyReturnRec) (user : String)
    (mr : MonthlyReturnInput) (now : ℕ) (newId : String)
    (store' : List MonthlyReturnRec)
    (h : upsert_monthly_return store user mr now newId = .ok store') :
    (store.filter (matchesKey user mr.month) = []
      ∧ store' = store ++
          [newMonthlyReturn user mr (derivedReturns mr).1 (derivedReturns mr).2 now newId])
    ∨ (store.filter (matchesKey user mr.month) ≠ []
      ∧ store' = replaceFirst (matchesKey user mr.month)
          (fun r => mergeMonthlyReturn r user mr (derivedReturns mr).1
            (derivedReturns mr).2 now) store) := by
  rw [upsert_monthly_return] at h
  split at h
  · exact absurd h (by simp)
  · split at h
    · exact absurd h (by simp)
    · rcases hq : store.filter (matchesKey user mr.month) with _ | ⟨r, rs⟩
      · rw [hq] at h
        dsimp only at h
        exact Or.inl ⟨rfl, (Except.ok.inj h).symm⟩
      · rw [hq] at h
        dsimp only at h
        exact Or.inr ⟨List.cons_ne_nil r rs, (Except.ok.inj h).symm⟩

theorem countKey_append_matching (store : List MonthlyReturnRec) (user month : String)
    (r : MonthlyReturnRec) (hr : matchesKey user month r = true) :
    countKey (store ++ [r]) user month = countKey store user month + 1 := by
  simp [countKey, List.filter_append, hr]

theorem countKey_replaceFirst (store : List MonthlyReturnRec) (user month : String)
    (f : MonthlyReturnRec → MonthlyReturnRec)
    (hf : ∀ r, matchesKey user month (f r) = true) :
    countKey (replaceFirst (matchesKey user month) f store) user month =
      countKey store user month :=
  filter_replaceFirst_length (matchesKey user month) f hf store

/-- C8: the monthly-return upsert keys on (user, month) — when a matching
record exists it is updated in place (same collection size, same number of
records under the key), a key holding at most one record keeps at most
one, and posting the same payload twice starting from a store without the
key leaves exactly one record under it. -/
theorem monthly_return_upsert_unique (store : List MonthlyReturnRec) (user : String)
    (mr : MonthlyReturnInput) (now now2 : ℕ) (id1 id2 : String) :
    (∀ store', upsert_monthly_return store user mr now id1 = .ok store' →
       (countKey store user mr.month ≤ 1 → countKey store' user mr.month ≤ 1)
       ∧ (1 ≤ countKey store user mr.month →
           store'.length = store.length
           ∧ countKey store' user mr.month = countKey store user mr.month))
    ∧ (∀ s1 s2, countKey store user mr.month = 0 →
         upsert_monthly_return store user mr now id1 = .ok s1 →
         upsert_monthly_return s1 user mr now2 id2 = .ok s2 →
         countKey s1 user mr.month = 1 ∧ countKey s2 user mr.month = 1
         ∧ s2.length = s1.length) := by
  constructor
  · intro store' h
    rcases upsert_ok_cases store user mr now id1 store' h with ⟨hf, rfl⟩ | ⟨hf, rfl⟩
    · have h0 : countKey store user mr.month = 0 := by
        simp [countKey, hf]
      have h1 : countKey (store ++
          [newMonthlyReturn user mr (derivedReturns mr).1 (derivedReturns mr).2 now id1])
          user mr.month = 1 := by
        rw [countKey_append_matching store user mr.month _
          (newMonthlyReturn_matches user mr _ _ now id1), h0]
      exact ⟨fun _ => le_of_eq h1, fun hge => absurd (h0 ▸ hge) (by norm_num)⟩
    · have hlen := replaceFirst_length (matchesKey user mr.month)
        (fun r => mergeMonthlyReturn r user mr (derivedReturns mr).1
          (derivedReturns mr).2 now) store
      have hcnt := countKey_replaceFirst store user mr.month
        (fun r => mergeMonthlyReturn r user mr (derivedReturns mr).1
          (derivedReturns mr).2 now)
        (fun r => mergeMonthlyReturn_matches r user mr _ _ now)
      exact ⟨fun hle => hcnt ▸ hle, fun _ => ⟨hlen, hcnt⟩⟩
  · intro s1 s2 h0 h1 h2
    rcases upsert_ok_cases store user mr now id1 s1 h1 with ⟨hf, rfl⟩ | ⟨hf, -⟩
    · have hc1 : countKey (store ++
          [newMonthlyReturn user mr (derivedReturns mr).1 (derivedReturns mr).2 now id1])
          user mr.month = 1 := by
        rw [countKey_append_matching store user mr.month _
          (newMonthlyReturn_matches user mr _ _ now id1), h0]
      rcases upsert_ok_cases _ user mr now2 id2 s2 h2 with ⟨hf2, rfl⟩ | ⟨hf2, rfl⟩
      · exfalso
        have : countKey (store ++
            [newMonthlyReturn user mr (derivedReturns mr).1 (derivedReturns mr).2 now id1])
            user mr.month = 0 := by simp [countKey, hf2]
        rw [hc1] at this
        exact one_ne_zero this
      · have hcnt2 := countKey_replaceFirst
          (store ++ [newMonthlyReturn user mr (derivedReturns mr).1
            (derivedReturns mr).2 now id1]) user mr.month
          (fun r => mergeMonthlyReturn r user mr (derivedReturns mr).1
            (derivedReturns mr).2 now2)
          (fun r => mergeMonthlyReturn_matches r user mr _ _ now2)
        have hlen2 := replaceFirst_length (matchesKey user mr.month)
          (fun r => mergeMonthlyReturn r user mr (derivedReturns mr).1
            (derivedReturns mr).2 now2)
          (store ++ [newMonthlyReturn user mr (derivedReturns mr).1
            (derivedReturns mr).2 now id1])
        exact ⟨hc1, by rw [hcnt2, hc1], hlen2⟩
    · exfalso
      have : countKey store user mr.month ≠ 0 := by
        intro hz
        exact hf (List.length_eq_zero.mp hz)
      exact this h0

/-- The monthly-return payload used by the C8 witness. -/
def demoMR : MonthlyReturnInput := { month := "January 2025", start_cap := 100 }

/-- The store after posting `demoMR` once to an empty store. -/
def demoS1 : List MonthlyReturnRec := [newMonthlyReturn "u" demoMR none none 1 "m1"]

/-- The store after posting `demoMR` a second time. -/
def demoS2 : List MonthlyReturnRec :=
  replaceFirst (matchesKey "u" demoMR.month)
    (fun r => mergeMonthlyReturn r "u" demoMR none none 2) demoS1

/-- Witness for C8: posting the same (user, month) payload twice to an
empty store leaves exactly one record under the key. -/
theorem monthly_return_upsert_unique_witness :
    countKey demoS1 "u" demoMR.month = 1 ∧ countKey demoS2 "u" demoMR.month = 1
    ∧ demoS2.length = demoS1.length :=
  (monthly_return_upsert_unique [] "u" demoMR 1 2 "m1" "m2").2 demoS1 demoS2
    rfl rfl rfl

end TradeTracker
